import Mathlib

/-!
Shallow embedding of the flatmate-finder server (server.js, the current
Cloudinary version): the search/filter/pagination query builder
(`GET /api/search-flatmates`), the owner-scoped delete handler
(`DELETE /api/my-posts/:postId`), the saved-post handler
(`POST /api/save-post/:postId`) and the conversation/message handlers
(`POST /api/conversations`, `GET /api/messages/:conversationId`,
`POST /api/messages`).  MongoDB collections are modelled as Lean lists in
natural (insertion) order; `findOne` is `List.find?`, `deleteOne` is
`List.eraseP`, `updateMany` is `List.map` with a guard, and `.sort` is a
stable insertion sort (`sortList`).  JS numbers inside queries are `Option Int` with
`none` playing NaN.
-/

namespace Flatmate

/-! ### JS string primitives -/

/-- Lower-casing, modelling the effect of a case-insensitive regex flag. -/
def jsToLower (s : String) : String := String.mk (s.data.map Char.toLower)

/-- `containsSeq pat l` is true iff `pat` occurs contiguously inside `l`. -/
def containsSeq (pat : List Char) : List Char → Bool
  | [] => pat.isEmpty
  | c :: rest => pat.isPrefixOf (c :: rest) || containsSeq pat rest

/-- Case-insensitive substring test: the predicate the spec uses to state
the state/city/location and preference filters.  For patterns free of
regex metacharacters this coincides with the code's regex search
(`regexSearchCI_eq_containsCI`); for other patterns it does not, which is
the divergence claim C1's counterexample exhibits. -/
def containsCI (hay pat : String) : Bool :=
  containsSeq (jsToLower pat).data (jsToLower hay).data

/-- One parsed unit of a regex pattern in the modelled fragment. -/
inductive RegexToken where
  | dot
  | lit (c : Char)
deriving DecidableEq

/-- Parse a pattern of the modelled fragment: `.` (code point 46) is the
wildcard, every other character a literal, folded for the `i` flag. -/
def tokenize (pat : String) : List RegexToken :=
  pat.data.map fun c => if c.toNat = 46 then RegexToken.dot else RegexToken.lit c.toLower

/-- The `.` wildcard: any character except a line terminator
(`\n`, `\r`, U+2028, U+2029 — the JS rule; PCRE excludes only `\n`, a
difference visible only in multi-line text). -/
def dotOk (c : Char) : Bool :=
  !(c.toNat == 10 || c.toNat == 13 || c.toNat == 8232 || c.toNat == 8233)

/-- Match the token list against an initial segment of the text. -/
def matchTokensAt : List RegexToken → List Char → Bool
  | [], _ => true
  | _ :: _, [] => false
  | t :: ts, c :: cs =>
    (match t with
     | .dot => dotOk c
     | .lit p => p == c) && matchTokensAt ts cs

/-- Unanchored search: try to match at every start position. -/
def searchTokens (toks : List RegexToken) : List Char → Bool
  | [] => toks.isEmpty
  | c :: cs => matchTokensAt toks (c :: cs) || searchTokens toks cs

/-- Case-insensitive unanchored regex search: the semantics of the code's
`{ $regex: pat, $options: "i" }` and `new RegExp(pat, "i")` on the
modelled fragment of patterns, namely literal characters and the `.`
wildcard.  Patterns using other regex metacharacters — quantifiers,
classes, groups, anchors, alternation, escapes, including invalid
patterns, which throw in the real server — are outside the modelled
fragment: the universal theorems below restrict to metacharacter-free
patterns (`metaFree`), and nothing else relies on this function's value
off the fragment. -/
def regexSearchCI (hay pat : String) : Bool :=
  searchTokens (tokenize pat) (jsToLower hay).data

/-- The characters that carry meaning in a JS/PCRE regex:
`\ ^ $ . | ? * + ( ) [ ] { }` (by code point). -/
def regexMeta (c : Char) : Bool :=
  c.toNat == 92 || c.toNat == 94 || c.toNat == 36 || c.toNat == 46 ||
  c.toNat == 124 || c.toNat == 63 || c.toNat == 42 || c.toNat == 43 ||
  c.toNat == 40 || c.toNat == 41 || c.toNat == 91 || c.toNat == 93 ||
  c.toNat == 123 || c.toNat == 125

/-- A pattern with no regex metacharacter: on these the regex search is
exactly the case-insensitive substring test. -/
def metaFree (s : String) : Bool := s.data.all fun c => !regexMeta c

def metaFreeOpt : Option String → Bool
  | none => true
  | some s => metaFree s

def decDigit (c : Char) : Bool := 48 ≤ c.toNat && c.toNat ≤ 57

def hexDigit (c : Char) : Bool :=
  decDigit c || (97 ≤ c.toNat && c.toNat ≤ 102) || (65 ≤ c.toNat && c.toNat ≤ 70)

def digitVal (c : Char) : Nat :=
  if decDigit c then c.toNat - 48
  else if 97 ≤ c.toNat then c.toNat - 87
  else c.toNat - 55

/-- JavaScript `parseInt(s)` with no radix argument: skip leading
whitespace, optional sign, a `0x`/`0X` hexadecimal marker, then the longest
run of digits; `none` is the NaN result when no digit is consumed. -/
def parseIntJS (s : String) : Option Int :=
  let cs := s.data.dropWhile Char.isWhitespace
  let signed : Bool × List Char :=
    match cs with
    | '-' :: rest => (true, rest)
    | '+' :: rest => (false, rest)
    | _ => (false, cs)
  let based : Nat × List Char :=
    match signed.2 with
    | '0' :: 'x' :: rest => (16, rest)
    | '0' :: 'X' :: rest => (16, rest)
    | _ => (10, signed.2)
  let ds := based.2.takeWhile (fun c => if based.1 = 16 then hexDigit c else decDigit c)
  if ds.isEmpty then none
  else
    let n : Nat := ds.foldl (fun a c => a * based.1 + digitVal c) 0
    some (if signed.1 then -(n : Int) else (n : Int))

/-! ### Listings and the search query translator -/

/-- A `Requirement` document.  Schema fields that are not `required` are
`Option`s (a field can be absent from a document). -/
structure Listing where
  id : Nat
  userId : Nat
  userEmail : Option String := none
  images : List String := []
  price : Option Int := none
  furnishing : Option String := none
  state : Option String := none
  city : Option String := none
  location : Option String := none
  prefs : List String := []
  gender : Option String := none
  notes : Option String := none
  createdAt : Nat := 0
deriving DecidableEq

/-- The `preferences` query parameter as express delivers it: absent, a
single string, or an array of strings (the handler checks
`Array.isArray(preferences)`). -/
inductive PrefsParam where
  | missing
  | str (s : String)
  | arr (l : List String)
deriving DecidableEq

/-- The raw query string of `GET /api/search-flatmates`; `none` is an
absent parameter. -/
structure SearchParams where
  state : Option String := none
  city : Option String := none
  location : Option String := none
  minPrice : Option String := none
  maxPrice : Option String := none
  furnishing : Option String := none
  gender : Option String := none
  preferences : PrefsParam := .missing
  sortBy : Option String := none
  page : Option String := none
  limit : Option String := none
deriving DecidableEq

/-- JS truthiness of an optional string parameter (`if (state) ...`):
present and non-empty. -/
def truthy : Option String → Bool
  | none => false
  | some s => !s.isEmpty

/-- JS truthiness of the `preferences` value: a string is truthy iff
non-empty, an array is always truthy. -/
def prefsActive : PrefsParam → Bool
  | .missing => false
  | .str s => !s.isEmpty
  | .arr _ => true

/-- `Array.isArray(preferences) ? preferences : [preferences]`. -/
def prefsArray : PrefsParam → List String
  | .missing => []
  | .str s => [s]
  | .arr l => l

/-- A JS number stored in the query object; `none` is NaN
(`parseInt` of an unparsable string). -/
abbrev JsNum := Option Int

/-- A string filter: key present in the query object iff the parameter was
truthy. -/
def strParam : Option String → Option String
  | none => none
  | some s => if s.isEmpty then none else some s

/-- A numeric bound: key present iff the parameter was truthy, holding
`parseInt` of the raw string (possibly NaN). -/
def numParam : Option String → Option JsNum
  | none => none
  | some s => if s.isEmpty then none else some (parseIntJS s)

/-- The `query` object built by the handler: for each field, `none` means
the key is absent (the filter is a no-op). -/
structure MongoQuery where
  state : Option String := none
  city : Option String := none
  location : Option String := none
  priceGte : Option JsNum := none
  priceLte : Option JsNum := none
  furnishing : Option String := none
  gender : Option String := none
  prefsIn : Option (List String) := none
deriving DecidableEq

/-- Lines 647-665 of the handler: the translation from raw parameters to
the MongoDB `query` object. -/
def buildQuery (p : SearchParams) : MongoQuery where
  state := strParam p.state
  city := strParam p.city
  location := strParam p.location
  priceGte := numParam p.minPrice
  priceLte := numParam p.maxPrice
  furnishing := strParam p.furnishing
  gender := strParam p.gender
  prefsIn := if prefsActive p.preferences then some (prefsArray p.preferences) else none

/-- `{ field: { $regex: pat, $options: "i" } }` on an optional string
field: an absent document field never matches a regex condition; a
present one is searched with the pattern (`regexSearchCI`). -/
def regexFieldMatch (qv fv : Option String) : Bool :=
  match qv with
  | none => true
  | some pat =>
    match fv with
    | none => false
    | some v => regexSearchCI v pat

/-- `{ field: x }` equality condition on an optional string field. -/
def eqFieldMatch (qv fv : Option String) : Bool :=
  match qv with
  | none => true
  | some x => decide (fv = some x)

/-- `{ price: { $gte: b } }`.  The NaN branch is never executed: mongoose
rejects the whole query with a `CastError` before matching (see
`searchHandler`). -/
def gteMatch (q : Option JsNum) (price : Option Int) : Bool :=
  match q with
  | none => true
  | some none => false
  | some (some b) =>
    match price with
    | none => false
    | some v => decide (b ≤ v)

/-- `{ price: { $lte: b } }`; same NaN caveat as `gteMatch`. -/
def lteMatch (q : Option JsNum) (price : Option Int) : Bool :=
  match q with
  | none => true
  | some none => false
  | some (some b) =>
    match price with
    | none => false
    | some v => decide (v ≤ b)

/-- `{ prefs: { $in: [re1, re2, ...] } }` over an array field: the document
matches iff some array element is matched by some of the regexes
(`new RegExp(pref, "i")`, modelled by `regexSearchCI`). -/
def prefsInMatch (q : Option (List String)) (tags : List String) : Bool :=
  match q with
  | none => true
  | some pats => tags.any fun t => pats.any fun pat => regexSearchCI t pat

/-- Whether a listing document satisfies every condition of the query
object (the semantics of `Requirement.find(query)` and
`Requirement.countDocuments(query)`). -/
def listingMatches (q : MongoQuery) (l : Listing) : Bool :=
  regexFieldMatch q.state l.state &&
  regexFieldMatch q.city l.city &&
  regexFieldMatch q.location l.location &&
  gteMatch q.priceGte l.price &&
  lteMatch q.priceLte l.price &&
  eqFieldMatch q.furnishing l.furnishing &&
  eqFieldMatch q.gender l.gender &&
  prefsInMatch q.prefsIn l.prefs

/-- A price bound that was set from an unparsable string: mongoose's
number cast rejects NaN, so the whole request fails. -/
def queryHasNaN (q : MongoQuery) : Bool :=
  decide (q.priceGte = some none) || decide (q.priceLte = some none)

/-- Ascending order on an optional numeric field; MongoDB sorts documents
missing the field before all numbers. -/
def optIntLe : Option Int → Option Int → Bool
  | none, _ => true
  | some _, none => false
  | some a, some b => decide (a ≤ b)

/-- The `sortOptions` switch: a comparator for the stable sort. -/
def sortLe (sortBy : String) : Listing → Listing → Bool :=
  match sortBy with
  | "newest" => fun a b => decide (b.createdAt ≤ a.createdAt)
  | "oldest" => fun a b => decide (a.createdAt ≤ b.createdAt)
  | "price-low" => fun a b => optIntLe a.price b.price
  | "price-high" => fun a b => optIntLe b.price a.price
  | _ => fun a b => decide (b.createdAt ≤ a.createdAt)

/-- Insert into a sorted list, keeping earlier elements first on ties. -/
def orderedInsert (le : α → α → Bool) (a : α) : List α → List α
  | [] => [a]
  | b :: l => if le a b then a :: b :: l else b :: orderedInsert le a l

/-- Stable insertion sort: the model of the driver's `.sort(...)`. -/
def sortList (le : α → α → Bool) : List α → List α
  | [] => []
  | a :: l => orderedInsert le a (sortList le l)

structure SearchPagination where
  currentPage : Int
  totalPages : Nat
  totalCount : Nat
  hasNextPage : Bool
  hasPrevPage : Bool
  limit : Int
deriving DecidableEq

structure SearchResponse where
  data : List Listing
  pagination : SearchPagination
deriving DecidableEq

/-- The `GET /api/search-flatmates` handler over a store of listings.
`error` covers the requests the stack refuses before producing a page: a
NaN price bound (mongoose `CastError`, caught as a 500), and NaN, negative
or zero skip/limit cursor options (rejected by the server / outside the
modelled fragment: MongoDB's `limit: 0` is the unlimited cursor, whose
`Infinity` totalPages a `Nat` cannot carry). -/
def searchHandler (p : SearchParams) (store : List Listing) :
    Except String SearchResponse :=
  let query := buildQuery p
  if queryHasNaN query then .error "CastError"
  else
    match parseIntJS (p.page.getD "1"), parseIntJS (p.limit.getD "6") with
    | some pageNum, some limitNum =>
      if (pageNum - 1) * limitNum < 0 ∨ limitNum ≤ 0 then .error "UnsupportedCursor"
      else
        let matching := store.filter (listingMatches query)
        let sorted := sortList (sortLe (p.sortBy.getD "newest")) matching
        let listings := (sorted.drop ((pageNum - 1) * limitNum).toNat).take limitNum.toNat
        let totalCount := matching.length
        let totalPages := (totalCount + limitNum.toNat - 1) / limitNum.toNat
        .ok { data := listings,
              pagination :=
                { currentPage := pageNum
                  totalPages := totalPages
                  totalCount := totalCount
                  hasNextPage := decide (pageNum < (totalPages : Int))
                  hasPrevPage := decide (1 < pageNum)
                  limit := limitNum } }
    | _, _ => .error "UnsupportedCursor"

/-! ### Owner-scoped deletion with Cloudinary cleanup -/

/-- The literal part of the regex
`/flatmate-finder-uploads\/([^.]+)/` used to pull a Cloudinary public id
out of an image URL. -/
def uploadsMarker : List Char := "flatmate-finder-uploads/".data

/-- Scan for the first position where the marker is followed by at least
one non-dot character; return the greedy `[^.]+` capture (the regex engine
keeps scanning when the character after the marker is a dot). -/
def publicIdSearch : List Char → Option (List Char)
  | [] => none
  | c :: rest =>
    if uploadsMarker.isPrefixOf (c :: rest) then
      let capture := ((c :: rest).drop uploadsMarker.length).takeWhile
        (fun d => decide (d ≠ '.'))
      if capture.isEmpty then publicIdSearch rest else some capture
    else publicIdSearch rest

/-- `imageUrl.match(/flatmate-finder-uploads\/([^.]+)/)` followed by
`` `flatmate-finder-uploads/${match[1]}` ``; `none` when the URL does not
match (the handler then skips the Cloudinary call). -/
def extractPublicId (url : String) : Option String :=
  (publicIdSearch url.data).map fun cap =>
    "flatmate-finder-uploads/" ++ String.mk cap

inductive DeleteResult where
  /-- 200 `Post deleted successfully.` -/
  | ok
  /-- 403 `Post not found or you are not authorized to delete it.` -/
  | forbidden
  /-- 500 from the catch block. -/
  | serverError
deriving DecidableEq

/-- The `DELETE /api/my-posts/:postId` handler.  `destroyOk` is the
external object store: whether `cloudinary.uploader.destroy` succeeds for
a given public id.  The image deletions run as a `Promise.all`: if any of
them rejects, the awaited `Promise.all` rejects, control jumps to the
catch block (500) and `Requirement.deleteOne` is never reached. -/
def deletePostHandler (postId userId : Nat) (destroyOk : String → Bool)
    (store : List Listing) : DeleteResult × List Listing :=
  match store.find? (fun l => decide (l.id = postId) && decide (l.userId = userId)) with
  | none => (.forbidden, store)
  | some post =>
    if (post.images.filterMap extractPublicId).all destroyOk then
      (.ok, store.eraseP (fun l => decide (l.id = postId) && decide (l.userId = userId)))
    else
      (.serverError, store)

/-! ### Saved posts -/

structure SavedPost where
  userId : Nat
  postId : Nat
  savedAt : Nat
deriving DecidableEq

inductive SaveResult where
  /-- 404 `Post not found`. -/
  | notFound
  /-- 200 `Post already saved` with `alreadySaved: true`. -/
  | alreadySaved
  /-- 200 `Post saved successfully`. -/
  | saved
deriving DecidableEq

/-- The `POST /api/save-post/:postId` handler: look the post up, report
`alreadySaved` when a `SavedPost` row for `(userId, postId)` exists,
otherwise insert one. -/
def savePostHandler (postId userId now : Nat) (posts : List Listing)
    (saved : List SavedPost) : SaveResult × List SavedPost :=
  if (posts.find? (fun p => decide (p.id = postId))).isNone then
    (.notFound, saved)
  else if (saved.find? (fun s => decide (s.userId = userId) && decide (s.postId = postId))).isSome then
    (.alreadySaved, saved)
  else
    (.saved, saved ++ [{ userId := userId, postId := postId, savedAt := now }])

/-- Number of `SavedPost` rows for a given `(userId, postId)` pair. -/
def pairCount (saved : List SavedPost) (userId postId : Nat) : Nat :=
  (saved.filter (fun s => decide (s.userId = userId) && decide (s.postId = postId))).length

/-! ### Conversations and messages -/

structure Conversation where
  id : Nat
  participants : List Nat
  lastMessage : String := ""
  lastMessageTime : Nat := 0
  createdAt : Nat := 0
deriving DecidableEq

structure ChatMessage where
  id : Nat
  conversationId : Nat
  senderId : Nat
  receiverId : Nat
  message : String
  read : Bool := false
  createdAt : Nat := 0
deriving DecidableEq

/-- The chat slice of the database, with the server-assigned id
counters. -/
structure ChatState where
  convs : List Conversation := []
  msgs : List ChatMessage := []
  nextConvId : Nat := 0
  nextMsgId : Nat := 0
deriving DecidableEq

inductive ChatErr where
  /-- 400 `Cannot chat with yourself`. -/
  | invalidOperation
  /-- 403 `Access denied`. -/
  | accessDenied
deriving DecidableEq

/-- `{ participants: { $all: [a, b] } }`: both queried ids occur in the
document's participant array. -/
def convPairMatch (a b : Nat) (c : Conversation) : Bool :=
  [a, b].all fun u => c.participants.contains u

/-- The `POST /api/conversations` handler: reject self-chat, otherwise
find a conversation holding both participants, creating one when
absent.  The state is returned unchanged on the error path and on the
found path. -/
def getOrCreateConversation (userId otherUserId now : Nat) (st : ChatState) :
    Except ChatErr Conversation × ChatState :=
  if userId = otherUserId then (.error .invalidOperation, st)
  else
    match st.convs.find? (convPairMatch userId otherUserId) with
    | some conv => (.ok conv, st)
    | none =>
      let conv : Conversation :=
        { id := st.nextConvId, participants := [userId, otherUserId],
          lastMessage := "", lastMessageTime := now, createdAt := now }
      (.ok conv, { st with convs := st.convs ++ [conv], nextConvId := st.nextConvId + 1 })

/-- Oldest-first order used by `.sort({ createdAt: 1 })`. -/
def msgLe (a b : ChatMessage) : Bool := decide (a.createdAt ≤ b.createdAt)

/-- The `GET /api/messages/:conversationId` handler: 403 unless some
conversation has this id with the requester among its participants;
otherwise return the conversation's messages oldest-first and mark the
unread ones addressed to the requester as read
(`updateMany({conversationId, receiverId: userId, read: false}, {read: true})`). -/
def listMessages (conversationId userId : Nat) (st : ChatState) :
    Except ChatErr (List ChatMessage) × ChatState :=
  match st.convs.find? (fun c => decide (c.id = conversationId) && c.participants.contains userId) with
  | none => (.error .accessDenied, st)
  | some _ =>
    let msgs := sortList msgLe (st.msgs.filter fun m => decide (m.conversationId = conversationId))
    let updated := st.msgs.map fun m =>
      if m.conversationId = conversationId ∧ m.receiverId = userId ∧ m.read = false
      then { m with read := true } else m
    (.ok msgs, { st with msgs := updated })

/-- The `POST /api/messages` handler: 403 unless some conversation has
this id with the *sender* among its participants; the supplied
`receiverId` is stored as-is, with no check of its own.  The parent
conversation gets `lastMessage` (first 100 characters) and
`lastMessageTime` updated. -/
def appendMessage (conversationId senderId receiverId : Nat) (body : String)
    (now : Nat) (st : ChatState) : Except ChatErr ChatMessage × ChatState :=
  match st.convs.find? (fun c => decide (c.id = conversationId) && c.participants.contains senderId) with
  | none => (.error .accessDenied, st)
  | some _ =>
    let msg : ChatMessage :=
      { id := st.nextMsgId, conversationId := conversationId, senderId := senderId,
        receiverId := receiverId, message := body, read := false, createdAt := now }
    let convs := st.convs.map fun c =>
      if c.id = conversationId
      then { c with lastMessage := body.take 100, lastMessageTime := now } else c
    (.ok msg, { st with msgs := st.msgs ++ [msg], convs := convs, nextMsgId := st.nextMsgId + 1 })

/-! ### Spec-side filter predicate -/

/-- The property C1 asserts of every returned listing, written from the
spec's wording: each active filter is satisfied (location fields by
case-insensitive substring, price by inclusive bounds, furnishing and
gender exactly, and at least one supplied preference matches some tag);
omitted filters impose nothing. -/
def satisfiesFilters (p : SearchParams) (l : Listing) : Prop :=
  (∀ s, strParam p.state = some s → ∃ v, l.state = some v ∧ containsCI v s = true) ∧
  (∀ s, strParam p.city = some s → ∃ v, l.city = some v ∧ containsCI v s = true) ∧
  (∀ s, strParam p.location = some s → ∃ v, l.location = some v ∧ containsCI v s = true) ∧
  (∀ b : Int, numParam p.minPrice = some (some b) → ∃ v, l.price = some v ∧ b ≤ v) ∧
  (∀ b : Int, numParam p.maxPrice = some (some b) → ∃ v, l.price = some v ∧ v ≤ b) ∧
  (∀ s, strParam p.furnishing = some s → l.furnishing = some s) ∧
  (∀ s, strParam p.gender = some s → l.gender = some s) ∧
  (prefsActive p.preferences = true →
    ∃ pat ∈ prefsArray p.preferences, ∃ t ∈ l.prefs, containsCI t pat = true)

/-- All active regex-typed filters of the request (state, city, location
and every supplied preference) are free of regex metacharacters: on this
fragment the code's regex search is exactly the case-insensitive
substring predicate of the spec. -/
def literalFiltersOnly (p : SearchParams) : Bool :=
  metaFreeOpt (strParam p.state) && metaFreeOpt (strParam p.city) &&
  metaFreeOpt (strParam p.location) &&
  (!prefsActive p.preferences || (prefsArray p.preferences).all metaFree)

/-! ### Concrete instances used by witnesses and counterexamples -/

def listingKA : Listing :=
  { id := 1, userId := 7, price := some 15000, state := some "Karnataka",
    prefs := ["Non-Smoker", "Vegetarian"], createdAt := 10 }

def listingKE : Listing :=
  { id := 2, userId := 8, price := some 4000, state := some "Kerala", createdAt := 20 }

def searchParamsW : SearchParams :=
  { state := some "karn", minPrice := some "10000", maxPrice := some "20000" }

def searchRespW : SearchResponse :=
  { data := [listingKA],
    pagination := { currentPage := 1, totalPages := 1, totalCount := 1,
                    hasNextPage := false, hasPrevPage := false, limit := 6 } }

def searchParamsPage : SearchParams := { page := some "2", limit := some "1" }

def searchParamsBadMin : SearchParams := { minPrice := some "abc" }

/-- A state filter whose pattern carries the `.` regex wildcard. -/
def searchParamsDot : SearchParams := { state := some "K.rn" }

def searchRespDot : SearchResponse :=
  { data := [listingKA],
    pagination := { currentPage := 1, totalPages := 1, totalCount := 1,
                    hasNextPage := false, hasPrevPage := false, limit := 6 } }

def postCloud : Listing :=
  { id := 1, userId := 7,
    images := ["http://res.cloudinary.com/d/image/upload/v1/flatmate-finder-uploads/pic1.jpg"] }

/-- An object store on which every deletion fails. -/
def destroyNever (_ : String) : Bool := false

/-- An object store on which every deletion succeeds. -/
def destroyAlways (_ : String) : Bool := true

def chatStateW : ChatState :=
  { convs := [{ id := 0, participants := [1, 2] }],
    msgs := [{ id := 0, conversationId := 0, senderId := 1, receiverId := 2,
               message := "hi", createdAt := 5 },
             { id := 1, conversationId := 0, senderId := 2, receiverId := 1,
               message := "yo", createdAt := 3 }],
    nextConvId := 1, nextMsgId := 2 }

def convW : Conversation :=
  { id := 0, participants := [1, 2], lastMessage := "", lastMessageTime := 0, createdAt := 0 }

def chatStateAfterCreate : ChatState :=
  { convs := [convW], msgs := [], nextConvId := 1, nextMsgId := 0 }

/-- The pagination contract of claim C2, at parsed page `pn` and parsed
limit `ln`: the envelope fields, the ceiling characterisation of
`totalPages`, and the `(page-1)*limit` window of at most `limit` items. -/
def paginationEnvelope (p : SearchParams) (store : List Listing) (pn ln : Int) : Prop :=
  ∃ resp, searchHandler p store = .ok resp ∧
    resp.pagination.currentPage = pn ∧
    resp.pagination.limit = ln ∧
    resp.pagination.totalCount = (store.filter (listingMatches (buildQuery p))).length ∧
    resp.pagination.totalCount ≤ resp.pagination.totalPages * ln.toNat ∧
    resp.pagination.totalPages * ln.toNat < resp.pagination.totalCount + ln.toNat ∧
    (resp.pagination.hasNextPage = true ↔ pn < (resp.pagination.totalPages : Int)) ∧
    (resp.pagination.hasPrevPage = true ↔ 1 < pn) ∧
    resp.data = ((sortList (sortLe (p.sortBy.getD "newest"))
        (store.filter (listingMatches (buildQuery p)))).drop
          (((pn - 1) * ln).toNat)).take ln.toNat ∧
    resp.data.length ≤ ln.toNat

/-- The listMessages contract of claim C7: access is denied exactly when
no conversation with this id counts the requester among its participants;
on success the returned sequence is a permutation of the conversation's
messages, ordered oldest-first, and in the resulting store every message
of the conversation addressed to the requester is read. -/
def listMessagesContract (cid uid : Nat) (st : ChatState) : Prop :=
  ((listMessages cid uid st).1 = .error .accessDenied ↔
    ∀ c ∈ st.convs, ¬(c.id = cid ∧ uid ∈ c.participants)) ∧
  (∀ msgs st', listMessages cid uid st = (.ok msgs, st') →
    msgs.Perm (st.msgs.filter fun m => decide (m.conversationId = cid)) ∧
    msgs.Pairwise (fun x y => x.createdAt ≤ y.createdAt) ∧
    ∀ m ∈ st'.msgs, m.conversationId = cid → m.receiverId = uid → m.read = true)

/-! ### Sorting and searching helper lemmas -/

theorem mem_orderedInsert {le : α → α → Bool} {a b : α} {l : List α} :
    b ∈ orderedInsert le a l ↔ b = a ∨ b ∈ l := by
  induction l with
  | nil => simp [orderedInsert]
  | cons c l ih =>
    by_cases h : le a c = true
    · simp [orderedInsert, h]
    · simp only [orderedInsert, if_neg h, List.mem_cons, ih]
      tauto

theorem perm_orderedInsert (le : α → α → Bool) (a : α) (l : List α) :
    (orderedInsert le a l).Perm (a :: l) := by
  induction l with
  | nil => simp [orderedInsert]
  | cons c l ih =>
    by_cases h : le a c = true
    · simp [orderedInsert, h]
    · rw [orderedInsert, if_neg h]
      exact (List.Perm.cons c ih).trans (List.Perm.swap a c l)

theorem perm_sortList (le : α → α → Bool) (l : List α) : (sortList le l).Perm l := by
  induction l with
  | nil => simp [sortList]
  | cons a l ih =>
    exact (perm_orderedInsert le a (sortList le l)).trans (List.Perm.cons a ih)

theorem sorted_orderedInsert {le : α → α → Bool}
    (htrans : ∀ x y z, le x y = true → le y z = true → le x z = true)
    (htot : ∀ x y, le x y = true ∨ le y x = true) {a : α} {l : List α}
    (h : l.Pairwise fun x y => le x y = true) :
    (orderedInsert le a l).Pairwise fun x y => le x y = true := by
  induction l with
  | nil => simp [orderedInsert]
  | cons c l ih =>
    obtain ⟨hc, hl⟩ := List.pairwise_cons.mp h
    by_cases hac : le a c = true
    · rw [orderedInsert, if_pos hac]
      refine List.pairwise_cons.mpr ⟨?_, h⟩
      intro x hx
      rcases List.mem_cons.mp hx with rfl | hx
      · exact hac
      · exact htrans a c x hac (hc x hx)
    · rw [orderedInsert, if_neg hac]
      refine List.pairwise_cons.mpr ⟨?_, ih hl⟩
      intro x hx
      rcases mem_orderedInsert.mp hx with rfl | hx
      · rcases htot x c with h1 | h1
        · exact absurd h1 hac
        · exact h1
      · exact hc x hx

theorem sorted_sortList {le : α → α → Bool}
    (htrans : ∀ x y z, le x y = true → le y z = true → le x z = true)
    (htot : ∀ x y, le x y = true ∨ le y x = true) (l : List α) :
    (sortList le l).Pairwise fun x y => le x y = true := by
  induction l with
  | nil => simp [sortList]
  | cons a l ih => exact sorted_orderedInsert htrans htot ih

theorem find?_congr {α : Type} {p q : α → Bool} (h : ∀ a, p a = q a)
    (l : List α) : l.find? p = l.find? q := by
  induction l with
  | nil => rfl
  | cons a l ih => rw [List.find?_cons, List.find?_cons, h a, ih]

/-! ### The regex search coincides with substring search on
metacharacter-free patterns -/

theorem matchTokensAt_lit_eq_isPrefixOf (pat : List Char) (text : List Char) :
    matchTokensAt (pat.map RegexToken.lit) text = pat.isPrefixOf text := by
  induction pat generalizing text with
  | nil => cases text <;> rfl
  | cons p ps ih =>
    cases text with
    | nil => rfl
    | cons c cs =>
      show ((p == c) && matchTokensAt (ps.map RegexToken.lit) cs) =
        ((p == c) && ps.isPrefixOf cs)
      rw [ih]

theorem searchTokens_lit_eq_containsSeq (pat : List Char) (text : List Char) :
    searchTokens (pat.map RegexToken.lit) text = containsSeq pat text := by
  induction text with
  | nil => cases pat <;> rfl
  | cons c cs ih =>
    show (matchTokensAt (pat.map RegexToken.lit) (c :: cs)
        || searchTokens (pat.map RegexToken.lit) cs) =
      (pat.isPrefixOf (c :: cs) || containsSeq pat cs)
    rw [matchTokensAt_lit_eq_isPrefixOf, ih]

theorem tokenize_eq_map_lit {pat : String} (h : metaFree pat = true) :
    tokenize pat = (jsToLower pat).data.map RegexToken.lit := by
  simp only [tokenize, jsToLower, List.map_map]
  apply List.map_congr_left
  intro c hc
  have hm : regexMeta c = false := by
    have h2 : ∀ x ∈ pat.data, regexMeta x = false := by simpa [metaFree] using h
    exact h2 c hc
  have h46 : ¬(c.toNat = 46) := by
    intro hc46
    rw [show regexMeta c = true from by simp [regexMeta, hc46]] at hm
    exact absurd hm (by simp)
  rw [if_neg h46]
  rfl

/-- On a metacharacter-free pattern, the code's regex search is the
spec's case-insensitive substring test. -/
theorem regexSearchCI_eq_containsCI {hay pat : String} (h : metaFree pat = true) :
    regexSearchCI hay pat = containsCI hay pat := by
  rw [regexSearchCI, tokenize_eq_map_lit h, searchTokens_lit_eq_containsSeq]
  rfl

/-! ### Filter matcher inversion lemmas -/

theorem regexFieldMatch_spec {qv fv : Option String}
    (h : regexFieldMatch qv fv = true) (hm : metaFreeOpt qv = true) :
    ∀ s, qv = some s → ∃ v, fv = some v ∧ containsCI v s = true := by
  intro s hs
  subst hs
  cases fv with
  | none => simp [regexFieldMatch] at h
  | some v =>
    refine ⟨v, rfl, ?_⟩
    rw [← regexSearchCI_eq_containsCI (by simpa [metaFreeOpt] using hm)]
    simpa [regexFieldMatch] using h

theorem gteMatch_spec {q : Option JsNum} {price : Option Int}
    (h : gteMatch q price = true) :
    ∀ b : Int, q = some (some b) → ∃ v, price = some v ∧ b ≤ v := by
  intro b hb
  subst hb
  cases price with
  | none => simp [gteMatch] at h
  | some v => exact ⟨v, rfl, by simpa [gteMatch] using h⟩

theorem lteMatch_spec {q : Option JsNum} {price : Option Int}
    (h : lteMatch q price = true) :
    ∀ b : Int, q = some (some b) → ∃ v, price = some v ∧ v ≤ b := by
  intro b hb
  subst hb
  cases price with
  | none => simp [lteMatch] at h
  | some v => exact ⟨v, rfl, by simpa [lteMatch] using h⟩

theorem eqFieldMatch_spec {qv fv : Option String}
    (h : eqFieldMatch qv fv = true) :
    ∀ s, qv = some s → fv = some s := by
  intro s hs
  subst hs
  simpa [eqFieldMatch] using h

theorem prefsInMatch_spec {pats tags : List String}
    (h : prefsInMatch (some pats) tags = true) (hm : pats.all metaFree = true) :
    ∃ pat ∈ pats, ∃ t ∈ tags, containsCI t pat = true := by
  simp only [prefsInMatch, List.any_eq_true] at h
  obtain ⟨t, ht, pat, hpat, hc⟩ := h
  refine ⟨pat, hpat, t, ht, ?_⟩
  rw [← regexSearchCI_eq_containsCI (List.all_eq_true.mp hm pat hpat)]
  exact hc

theorem listingMatches_satisfies {p : SearchParams} {l : Listing}
    (h : listingMatches (buildQuery p) l = true)
    (hlit : literalFiltersOnly p = true) : satisfiesFilters p l := by
  simp only [literalFiltersOnly, Bool.and_eq_true] at hlit
  obtain ⟨⟨⟨hm1, hm2⟩, hm3⟩, hm4⟩ := hlit
  simp only [listingMatches, buildQuery, Bool.and_eq_true] at h
  obtain ⟨⟨⟨⟨⟨⟨⟨h1, h2⟩, h3⟩, h4⟩, h5⟩, h6⟩, h7⟩, h8⟩ := h
  refine ⟨regexFieldMatch_spec h1 hm1, regexFieldMatch_spec h2 hm2,
    regexFieldMatch_spec h3 hm3,
    gteMatch_spec h4, lteMatch_spec h5, eqFieldMatch_spec h6, eqFieldMatch_spec h7, ?_⟩
  intro hact
  simp only [hact, if_true] at h8
  simp only [hact, Bool.not_true, Bool.false_or] at hm4
  exact prefsInMatch_spec h8 hm4

/-- Every listing of a successful search response satisfies the built
query. -/
theorem searchHandler_ok_mem {p : SearchParams} {store : List Listing}
    {resp : SearchResponse} (h : searchHandler p store = .ok resp) :
    ∀ l ∈ resp.data, listingMatches (buildQuery p) l = true := by
  intro l hl
  simp only [searchHandler] at h
  split at h
  · exact Except.noConfusion h
  · split at h
    · split at h
      · exact Except.noConfusion h
      · rw [Except.ok.injEq] at h
        subst h
        exact (List.mem_filter.mp ((perm_sortList _ _).mem_iff.mp
          (List.mem_of_mem_drop (List.mem_of_mem_take hl)))).2
    · exact Except.noConfusion h

/-- Claim C1 counterexample: the state filter reaches the store as a
regex, not as a literal substring test.  With the active filter "K.rn"
the search returns the Karnataka listing although "K.rn" is not a
case-insensitive substring of "Karnataka": the returned listing violates
the claimed filter predicate. -/
theorem search_filter_regex_not_substring :
    searchHandler searchParamsDot [listingKA] = .ok searchRespDot ∧
    listingKA ∈ searchRespDot.data ∧
    ¬ satisfiesFilters searchParamsDot listingKA := by
  refine ⟨rfl, ?_, ?_⟩
  · exact List.mem_singleton_self listingKA
  · intro hs
    obtain ⟨v, hv, hc⟩ := hs.1 "K.rn" rfl
    rw [show listingKA.state = some "Karnataka" from rfl, Option.some.injEq] at hv
    subst hv
    exact absurd hc (by decide)

/-- Claim C1 amended (restricted to filters free of regex
metacharacters, the fragment on which the code's regex search is the
spec's substring predicate): every listing returned by a successful
search whose active string filters are metacharacter-free satisfies
every active filter predicate (case-insensitive substring for
state/city/location, inclusive price bounds, exact furnishing and
gender, at least one preference matching some tag), and omitted filters
exclude nothing. -/
theorem search_results_satisfy_active_literal_filters
    (p : SearchParams) (store : List Listing) (resp : SearchResponse)
    (h : searchHandler p store = .ok resp)
    (hlit : literalFiltersOnly p = true) :
    (∀ l ∈ resp.data, satisfiesFilters p l) ∧
    (∀ l : Listing, listingMatches (buildQuery ({} : SearchParams)) l = true) :=
  ⟨fun l hl => listingMatches_satisfies (searchHandler_ok_mem h l hl) hlit,
   fun _ => rfl⟩

theorem search_results_satisfy_active_literal_filters_witness :
    searchHandler searchParamsW [listingKA, listingKE] = .ok searchRespW ∧
    literalFiltersOnly searchParamsW = true ∧
    ∀ l ∈ searchRespW.data, satisfiesFilters searchParamsW l :=
  ⟨rfl, by decide,
    (search_results_satisfy_active_literal_filters searchParamsW [listingKA, listingKE]
      searchRespW rfl (by decide)).1⟩

/-- `a < a / b * b + b` for positive `b`: the upper half of the ceiling
characterisation. -/
theorem lt_div_mul_add {a b : Nat} (hb : 0 < b) : a < a / b * b + b := by
  have h1 := Nat.div_add_mod a b
  have h2 := Nat.mod_lt a hb
  have h3 : b * (a / b) = a / b * b := Nat.mul_comm b (a / b)
  omega

/-- Evaluation of the search handler on the non-erroring path. -/
theorem searchHandler_eq (p : SearchParams) (store : List Listing) {pn ln : Int}
    (hp : parseIntJS (p.page.getD "1") = some pn)
    (hl : parseIntJS (p.limit.getD "6") = some ln)
    (hq : queryHasNaN (buildQuery p) = false)
    (hok : ¬((pn - 1) * ln < 0 ∨ ln ≤ 0)) :
    searchHandler p store = .ok
      { data := ((sortList (sortLe (p.sortBy.getD "newest"))
          (store.filter (listingMatches (buildQuery p)))).drop
            (((pn - 1) * ln).toNat)).take ln.toNat,
        pagination :=
          { currentPage := pn
            totalPages := ((store.filter (listingMatches (buildQuery p))).length
              + ln.toNat - 1) / ln.toNat
            totalCount := (store.filter (listingMatches (buildQuery p))).length
            hasNextPage := decide (pn < ((((store.filter (listingMatches (buildQuery p))).length
              + ln.toNat - 1) / ln.toNat : Nat) : Int))
            hasPrevPage := decide (1 < pn)
            limit := ln } } := by
  simp only [searchHandler, hq, Bool.false_eq_true, if_false, hp, hl]
  rw [if_neg hok]

/-- Claim C2: with a parsed 1-based page and a parsed positive limit, the
search response satisfies the pagination contract: the envelope echoes
page/limit/count, `totalPages` is the ceiling of `totalCount / limit`,
`hasNextPage` iff `currentPage < totalPages`, `hasPrevPage` iff
`currentPage > 1`, and the data window is `(page-1)*limit` onward with at
most `limit` items. -/
theorem pagination_envelope_holds
    (p : SearchParams) (store : List Listing) (pn ln : Int)
    (hp : parseIntJS (p.page.getD "1") = some pn)
    (hl : parseIntJS (p.limit.getD "6") = some ln)
    (hp1 : 1 ≤ pn) (hl1 : 1 ≤ ln)
    (hq : queryHasNaN (buildQuery p) = false) :
    paginationEnvelope p store pn ln := by
  have hok : ¬((pn - 1) * ln < 0 ∨ ln ≤ 0) := by
    push_neg
    exact ⟨mul_nonneg (by omega) (by omega), by omega⟩
  have hL : 0 < ln.toNat := by omega
  refine ⟨_, searchHandler_eq p store hp hl hq hok, rfl, rfl, rfl, ?_, ?_, ?_, ?_, rfl, ?_⟩
  · show (store.filter (listingMatches (buildQuery p))).length ≤
      ((store.filter (listingMatches (buildQuery p))).length + ln.toNat - 1)
        / ln.toNat * ln.toNat
    have h2 := lt_div_mul_add
      (a := (store.filter (listingMatches (buildQuery p))).length + ln.toNat - 1) hL
    generalize hgen : ((store.filter (listingMatches (buildQuery p))).length
      + ln.toNat - 1) / ln.toNat * ln.toNat = x at h2 ⊢
    omega
  · show ((store.filter (listingMatches (buildQuery p))).length + ln.toNat - 1)
        / ln.toNat * ln.toNat <
      (store.filter (listingMatches (buildQuery p))).length + ln.toNat
    have h2 := Nat.div_mul_le_self
      ((store.filter (listingMatches (buildQuery p))).length + ln.toNat - 1) ln.toNat
    generalize hgen : ((store.filter (listingMatches (buildQuery p))).length
      + ln.toNat - 1) / ln.toNat * ln.toNat = x at h2 ⊢
    omega
  · exact decide_eq_true_iff
  · exact decide_eq_true_iff
  · exact List.length_take_le _ _

theorem pagination_envelope_holds_witness :
    parseIntJS (searchParamsPage.page.getD "1") = some 2 ∧
    parseIntJS (searchParamsPage.limit.getD "6") = some 1 ∧
    (1 : Int) ≤ 2 ∧ (1 : Int) ≤ 1 ∧
    queryHasNaN (buildQuery searchParamsPage) = false ∧
    paginationEnvelope searchParamsPage [listingKA, listingKE] 2 1 :=
  ⟨rfl, rfl, by decide, by decide, rfl,
    pagination_envelope_holds searchParamsPage [listingKA, listingKE] 2 1
      rfl rfl (by decide) (by decide) rfl⟩

/-- Claim C3 (code bug): a `minPrice` that does not parse is NOT treated
as absent.  The translator stores the NaN result of `parseInt` as the
`$gte` price bound (the key is present), and the executed request then
fails with mongoose's number-cast error instead of returning results
unconstrained by price. -/
theorem unparsable_min_price_is_not_absent :
    (buildQuery searchParamsBadMin).priceGte = some none ∧
    (buildQuery searchParamsBadMin).priceGte ≠ none ∧
    searchHandler searchParamsBadMin [listingKA, listingKE] = .error "CastError" :=
  ⟨rfl, by decide, rfl⟩

/-- Claim C4 counterexample: a listing with one stored image whose
external deletion fails.  The delete request answers with the 500 error
and the listing row is still in the store, refuting "the listing record
is removed even when an image deletion fails / cleanup failure is never
propagated". -/
theorem image_cleanup_failure_blocks_deletion :
    deletePostHandler 1 7 destroyNever [postCloud] = (.serverError, [postCloud]) ∧
    postCloud ∈ (deletePostHandler 1 7 destroyNever [postCloud]).2 := by
  constructor
  · rfl
  · rw [show deletePostHandler 1 7 destroyNever [postCloud]
        = (.serverError, [postCloud]) from rfl]
    exact List.mem_singleton_self postCloud

/-- Claim C4 amended: an image-deletion failure is propagated — the
handler rejects with the 500 error and the listing row survives; the row
is removed exactly when every image deletion succeeds (at which point the
first matching row is deleted). -/
theorem delete_requires_image_cleanup_success
    (postId userId : Nat) (destroyOk : String → Bool)
    (store : List Listing) (post : Listing)
    (hfind : store.find?
      (fun l => decide (l.id = postId) && decide (l.userId = userId)) = some post) :
    ((post.images.filterMap extractPublicId).all destroyOk = false →
      deletePostHandler postId userId destroyOk store = (.serverError, store)) ∧
    ((post.images.filterMap extractPublicId).all destroyOk = true →
      deletePostHandler postId userId destroyOk store =
        (.ok, store.eraseP
          (fun l => decide (l.id = postId) && decide (l.userId = userId)))) := by
  constructor
  · intro hfail
    simp only [deletePostHandler, hfind, hfail, Bool.false_eq_true, if_false]
  · intro hok
    simp only [deletePostHandler, hfind, hok, if_true]

theorem delete_requires_image_cleanup_success_witness :
    [postCloud].find?
      (fun l => decide (l.id = 1) && decide (l.userId = 7)) = some postCloud ∧
    ((postCloud.images.filterMap extractPublicId).all destroyNever = false →
      deletePostHandler 1 7 destroyNever [postCloud] = (.serverError, [postCloud])) ∧
    ((postCloud.images.filterMap extractPublicId).all destroyNever = true →
      deletePostHandler 1 7 destroyNever [postCloud] =
        (.ok, [postCloud].eraseP (fun l => decide (l.id = 1) && decide (l.userId = 7)))) :=
  ⟨rfl, delete_requires_image_cleanup_success 1 7 destroyNever [postCloud] postCloud rfl⟩

/-- Claim C5: when no stored record carries this id with this owner, the
delete handler reports the authorization-as-data-filter "false" outcome
(the 403 response) instead of raising, and the store — any record with
that id included — is left exactly as it was. -/
theorem delete_unowned_returns_false
    (postId userId : Nat) (destroyOk : String → Bool) (store : List Listing)
    (h : ∀ l ∈ store, ¬(l.id = postId ∧ l.userId = userId)) :
    deletePostHandler postId userId destroyOk store = (.forbidden, store) := by
  have hnone : store.find?
      (fun l => decide (l.id = postId) && decide (l.userId = userId)) = none := by
    rw [List.find?_eq_none]
    intro l hl
    simp only [Bool.and_eq_true, decide_eq_true_eq]
    exact h l hl
  unfold deletePostHandler
  rw [hnone]

theorem delete_unowned_returns_false_witness :
    (∀ l ∈ [postCloud], ¬(l.id = 1 ∧ l.userId = 9)) ∧
    deletePostHandler 1 9 destroyAlways [postCloud] = (.forbidden, [postCloud]) :=
  ⟨by decide, delete_unowned_returns_false 1 9 destroyAlways [postCloud] (by decide)⟩

/-- After a successful getOrCreateConversation, the returned conversation
is what a `$all` lookup for the pair finds in the resulting store. -/
theorem getOrCreate_found (a b now1 : Nat) (st st1 : ChatState) (c1 : Conversation)
    (hab : a ≠ b)
    (h1 : getOrCreateConversation a b now1 st = (.ok c1, st1)) :
    st1.convs.find? (convPairMatch a b) = some c1 := by
  rw [getOrCreateConversation, if_neg hab] at h1
  cases hfind : st.convs.find? (convPairMatch a b) with
  | some conv =>
    rw [hfind] at h1
    simp only [Prod.mk.injEq, Except.ok.injEq] at h1
    obtain ⟨he, hst⟩ := h1
    subst he
    subst hst
    exact hfind
  | none =>
    rw [hfind] at h1
    simp only [Prod.mk.injEq, Except.ok.injEq] at h1
    obtain ⟨he, hst⟩ := h1
    subst he
    subst hst
    show (st.convs ++ [_]).find? (convPairMatch a b) = _
    rw [List.find?_append, hfind]
    simp [convPairMatch]

/-- A pair whose conversation the lookup finds is returned as-is, with
the store untouched. -/
theorem getOrCreate_of_found (a b now : Nat) (st : ChatState) (c : Conversation)
    (hab : a ≠ b) (hfind : st.convs.find? (convPairMatch a b) = some c) :
    getOrCreateConversation a b now st = (.ok c, st) := by
  rw [getOrCreateConversation, if_neg hab, hfind]

/-- Claim C6: for distinct users, a second getOrCreateConversation call
with the same pair — in either argument order — returns the conversation
id produced by the first call, and leaves the store unchanged, so the
pair keeps a single conversation. -/
theorem conversation_get_or_create_idempotent
    (a b now1 now2 : Nat) (st st1 : ChatState) (c1 : Conversation)
    (hab : a ≠ b)
    (h1 : getOrCreateConversation a b now1 st = (.ok c1, st1)) :
    (∃ c2, getOrCreateConversation a b now2 st1 = (.ok c2, st1) ∧ c2.id = c1.id) ∧
    (∃ c2, getOrCreateConversation b a now2 st1 = (.ok c2, st1) ∧ c2.id = c1.id) := by
  have hfound := getOrCreate_found a b now1 st st1 c1 hab h1
  have hswap : ∀ c : Conversation, convPairMatch b a c = convPairMatch a b c := by
    intro c
    simp [convPairMatch, Bool.and_comm]
  refine ⟨⟨c1, getOrCreate_of_found a b now2 st1 c1 hab hfound, rfl⟩,
    ⟨c1, getOrCreate_of_found b a now2 st1 c1 (Ne.symm hab) ?_, rfl⟩⟩
  rw [find?_congr hswap]
  exact hfound

theorem conversation_get_or_create_idempotent_witness :
    (1 : Nat) ≠ 2 ∧
    getOrCreateConversation 1 2 0 {} = (.ok convW, chatStateAfterCreate) ∧
    (∃ c2, getOrCreateConversation 1 2 5 chatStateAfterCreate =
        (.ok c2, chatStateAfterCreate) ∧ c2.id = convW.id) ∧
    (∃ c2, getOrCreateConversation 2 1 5 chatStateAfterCreate =
        (.ok c2, chatStateAfterCreate) ∧ c2.id = convW.id) :=
  ⟨by decide, rfl,
    conversation_get_or_create_idempotent 1 2 0 5 {} chatStateAfterCreate convW
      (by decide) rfl⟩

/-- Claim C9: a self-chat request is rejected with the InvalidOperation
(400) outcome before any store access, and no conversation is created:
the store comes back unchanged. -/
theorem conversation_self_chat_rejected (a now : Nat) (st : ChatState) :
    getOrCreateConversation a a now st = (.error .invalidOperation, st) := by
  rw [getOrCreateConversation, if_pos rfl]

theorem conversation_self_chat_rejected_witness :
    getOrCreateConversation 3 3 1 chatStateW = (.error .invalidOperation, chatStateW) :=
  conversation_self_chat_rejected 3 1 chatStateW

theorem msgLe_trans (x y z : ChatMessage)
    (hxy : msgLe x y = true) (hyz : msgLe y z = true) : msgLe x z = true := by
  simp only [msgLe, decide_eq_true_eq] at hxy hyz ⊢
  omega

theorem msgLe_total (x y : ChatMessage) : msgLe x y = true ∨ msgLe y x = true := by
  simp only [msgLe, decide_eq_true_eq]
  omega

/-- Claim C7: the listMessages access/order/read-marking contract holds
for every request. -/
theorem list_messages_contract (cid uid : Nat) (st : ChatState) :
    listMessagesContract cid uid st := by
  cases hfind : st.convs.find?
      (fun c => decide (c.id = cid) && c.participants.contains uid) with
  | none =>
    constructor
    · constructor
      · intro _ c hc
        have hnp := List.find?_eq_none.mp hfind c hc
        simp only [Bool.and_eq_true, decide_eq_true_eq, not_and] at hnp
        rintro ⟨hid, hmem⟩
        exact hnp hid (by simpa using hmem)
      · intro _
        simp only [listMessages, hfind]
    · intro msgs st' h
      simp only [listMessages, hfind, Prod.mk.injEq] at h
      exact Except.noConfusion h.1
  | some c =>
    have hc := List.mem_of_find?_eq_some hfind
    have hp := List.find?_some hfind
    simp only [Bool.and_eq_true, decide_eq_true_eq] at hp
    constructor
    · constructor
      · intro habs
        simp only [listMessages, hfind] at habs
        exact Except.noConfusion habs
      · intro hall
        exact absurd ⟨hp.1, by simpa using hp.2⟩ (hall c hc)
    · intro msgs st' h
      simp only [listMessages, hfind, Prod.mk.injEq, Except.ok.injEq] at h
      obtain ⟨hm, hst⟩ := h
      subst hm
      subst hst
      refine ⟨perm_sortList _ _, ?_, ?_⟩
      · exact (sorted_sortList msgLe_trans msgLe_total _).imp
          fun hx => by simpa [msgLe] using hx
      · intro m hm hmc hmr
        obtain ⟨m0, hm0, hfm⟩ := List.mem_map.mp hm
        subst hfm
        by_cases hcond : m0.conversationId = cid ∧ m0.receiverId = uid ∧ m0.read = false
        · rw [if_pos hcond]
        · rw [if_neg hcond] at hmc hmr ⊢
          rcases Bool.eq_false_or_eq_true m0.read with hb | hb
          · exact hb
          · exact absurd ⟨hmc, hmr, hb⟩ hcond

theorem list_messages_contract_witness : listMessagesContract 0 2 chatStateW :=
  list_messages_contract 0 2 chatStateW

/-- Claim C8: when the post exists and the uniqueness invariant held
before, a second save of the same (user, post) pair reports
already-saved without touching the rows, and exactly one row for the
pair exists after the first save. -/
theorem saved_post_second_save_already_saved
    (postId userId now1 now2 : Nat) (posts : List Listing) (saved : List SavedPost)
    (hpost : ∃ p ∈ posts, p.id = postId)
    (hinv : pairCount saved userId postId ≤ 1) :
    savePostHandler postId userId now2 posts
        (savePostHandler postId userId now1 posts saved).2 =
      (.alreadySaved, (savePostHandler postId userId now1 posts saved).2) ∧
    pairCount (savePostHandler postId userId now1 posts saved).2 userId postId = 1 := by
  have hposts : (posts.find? (fun p => decide (p.id = postId))).isNone = false := by
    cases hfp : posts.find? (fun p => decide (p.id = postId)) with
    | none =>
      obtain ⟨q, hq, hqid⟩ := hpost
      exact absurd (by simp [hqid]) (List.find?_eq_none.mp hfp q hq)
    | some _ => rfl
  cases hsave : saved.find?
      (fun s => decide (s.userId = userId) && decide (s.postId = postId)) with
  | some s0 =>
    have h1 : savePostHandler postId userId now1 posts saved = (.alreadySaved, saved) := by
      simp only [savePostHandler, hposts, Bool.false_eq_true, if_false, hsave,
        Option.isSome_some, if_true]
    rw [h1]
    constructor
    · simp only [savePostHandler, hposts, Bool.false_eq_true, if_false, hsave,
        Option.isSome_some, if_true]
    · have hmem := List.mem_of_find?_eq_some hsave
      have hpred := List.find?_some hsave
      have hpos : 0 < pairCount saved userId postId :=
        List.length_pos.mpr (List.ne_nil_of_mem (List.mem_filter.mpr ⟨hmem, hpred⟩))
      exact Nat.le_antisymm hinv hpos
  | none =>
    have hcnt0 : pairCount saved userId postId = 0 := by
      rw [pairCount, List.length_eq_zero, List.filter_eq_nil_iff]
      exact List.find?_eq_none.mp hsave
    have h1 : savePostHandler postId userId now1 posts saved =
        (.saved, saved ++ [{ userId := userId, postId := postId, savedAt := now1 }]) := by
      simp only [savePostHandler, hposts, Bool.false_eq_true, if_false, hsave,
        Option.isSome_none, if_false]
    rw [h1]
    have hrow : (fun s => decide (s.userId = userId) && decide (s.postId = postId))
        ({ userId := userId, postId := postId, savedAt := now1 } : SavedPost) = true := by
      simp
    have hfind2 : (saved ++
        [({ userId := userId, postId := postId, savedAt := now1 } : SavedPost)]).find?
        (fun s => decide (s.userId = userId) && decide (s.postId = postId)) =
        some { userId := userId, postId := postId, savedAt := now1 } := by
      rw [List.find?_append, hsave]
      simp
    constructor
    · simp only [savePostHandler, hposts, Bool.false_eq_true, if_false, hfind2,
        Option.isSome_some, if_true]
    · rw [pairCount, List.filter_append, List.length_append]
      have h2 : List.filter (fun s => decide (s.userId = userId) && decide (s.postId = postId))
          [({ userId := userId, postId := postId, savedAt := now1 } : SavedPost)] =
          [{ userId := userId, postId := postId, savedAt := now1 }] := by
        simp
      rw [pairCount] at hcnt0
      rw [h2, hcnt0]
      simp

theorem saved_post_second_save_already_saved_witness :
    (∃ p ∈ [listingKA], p.id = 1) ∧
    pairCount [] 5 1 ≤ 1 ∧
    savePostHandler 1 5 200 [listingKA] (savePostHandler 1 5 100 [listingKA] []).2 =
      (.alreadySaved, (savePostHandler 1 5 100 [listingKA] []).2) ∧
    pairCount (savePostHandler 1 5 100 [listingKA] []).2 5 1 = 1 :=
  ⟨by decide, by decide,
    saved_post_second_save_already_saved 1 5 100 200 [listingKA] []
      (by decide) (by decide)⟩

/-- Claim C10: appendMessage validates only the sender's membership in
the conversation; the supplied receiverId is stored unchanged on the
created message (no check relates it to the participants, it may even
equal the sender), and the message is appended to the store. -/
theorem append_message_stores_unvalidated_receiver
    (cid sender receiver : Nat) (body : String) (now : Nat) (st : ChatState)
    (c : Conversation) (hc : c ∈ st.convs) (hid : c.id = cid)
    (hsend : sender ∈ c.participants) :
    ∃ msg st', appendMessage cid sender receiver body now st = (.ok msg, st') ∧
      msg.receiverId = receiver ∧ msg.senderId = sender ∧
      msg.conversationId = cid ∧ st'.msgs = st.msgs ++ [msg] := by
  have hsomeP : (st.convs.find?
      (fun x => decide (x.id = cid) && x.participants.contains sender)).isSome := by
    rw [List.find?_isSome]
    exact ⟨c, hc, by simp [hid, hsend]⟩
  obtain ⟨c', hfind⟩ := Option.isSome_iff_exists.mp hsomeP
  refine ⟨⟨st.nextMsgId, cid, sender, receiver, body, false, now⟩,
    { st with
        msgs := st.msgs ++ [⟨st.nextMsgId, cid, sender, receiver, body, false, now⟩],
        convs := st.convs.map fun c0 =>
          if c0.id = cid
          then { c0 with lastMessage := body.take 100, lastMessageTime := now } else c0,
        nextMsgId := st.nextMsgId + 1 },
    ?_, rfl, rfl, rfl, rfl⟩
  rw [appendMessage, hfind]

theorem append_message_stores_unvalidated_receiver_witness :
    convW ∈ chatStateW.convs ∧ convW.id = 0 ∧ (1 : Nat) ∈ convW.participants ∧
    (99 : Nat) ∉ convW.participants ∧
    ∃ msg st', appendMessage 0 1 99 "hello" 42 chatStateW = (.ok msg, st') ∧
      msg.receiverId = 99 ∧ msg.senderId = 1 ∧
      msg.conversationId = 0 ∧ st'.msgs = chatStateW.msgs ++ [msg] :=
  ⟨by decide, by decide, by decide, by decide,
    append_message_stores_unvalidated_receiver 0 1 99 "hello" 42 chatStateW convW
      (by decide) rfl (by decide)⟩

end Flatmate
